import Mathlib
/-!
Verification development for the Trippo offline-first synchronization engine.

Each definition below is a shallow embedding of a function of the repository:
the identifier generator (src/lib/idGenerator.ts), the sync manager
(src/lib/syncManager.ts), the request manager (src/lib/requestManager.ts),
the response cache (ApiCacheManager), the IndexedDB store helpers
(src/lib/indexedDB.ts) and the reconciliation / deduplication logic of the
data-access hook (src/hooks/useApi.ts).  JavaScript numbers that are always
integers in the code are modelled as Nat; timestamps (Date.now()) and the
draws of Math.random are explicit parameters.
-/

namespace Trippo

/-! ### Identifier generator (src/lib/idGenerator.ts)

The module keeps one mutable counter, initially 0. -/

def MAX_COUNTER : Nat := 9999

/-- State of the module-level counter of idGenerator.ts. -/
structure GenState where
  counter : Nat
deriving Repr, DecidableEq

/-- Model of generateUniqueId.  The millisecond timestamp (Date.now()) and the
value floor(Math.random() * 1000) are environment inputs; the counter is
threaded explicitly.  Returns the produced id and the new counter state.
Source: counter = (counter + 1) % MAX_COUNTER;
return timestamp * 10000 + random * 10 + counter. -/
def generateUniqueId (timestamp random : Nat) (s : GenState) : Nat × GenState :=
  let c := (s.counter + 1) % MAX_COUNTER
  (timestamp * 10000 + random * 10 + c, ⟨c⟩)

/-- Run a sequence of generateUniqueId calls; each list entry supplies the
timestamp and the random draw observed by that call. -/
def runGen (s : GenState) : List (Nat × Nat) → List Nat
  | [] => []
  | (t, r) :: rest =>
    let p := generateUniqueId t r s
    p.1 :: runGen p.2 rest

/-! ### JavaScript value primitives shared by the embeddings

Identifiers in the code are either MongoDB string ids or JavaScript numbers;
both appear in the same `id` / `_id` fields. -/

/-- An identifier value as it appears in record fields: a JS number or a
string. -/
inductive JsId where
  | num (n : Nat)
  | str (s : String)
deriving Repr, DecidableEq

/-- JS truthiness of an id value: the number 0 and the empty string are
falsy. -/
def jsIdTruthy : JsId → Bool
  | .num n => n != 0
  | .str s => s != ""

/-- Truthiness of a possibly-undefined id value. -/
def jsOptTruthy : Option JsId → Bool
  | none => false
  | some v => jsIdTruthy v

/-- Model of String(id) for an integer-valued number or a string. -/
def jsIdToString : JsId → String
  | .num n => toString n
  | .str s => s

/-- Longest run of decimal digits at the head of a character list. -/
def leadingDigits : List Char → List Char
  | [] => []
  | c :: cs => if c.isDigit then c :: leadingDigits cs else []

/-- Numeric value of a list of decimal digit characters. -/
def digitsToNat (l : List Char) : Nat :=
  l.foldl (fun a c => a * 10 + (c.toNat - 48)) 0

/-- Model of JavaScript parseInt(s) (radix 10) on inputs without leading
whitespace or sign, as produced by the code's String(id) values: none models
NaN. -/
def parseIntNat (s : String) : Option Nat :=
  match leadingDigits s.toList with
  | [] => none
  | ds => some (digitsToNat ds)

/-- Does the pattern match at the head of the character list? -/
def matchesLead : List Char → List Char → Bool
  | [], _ => true
  | _ :: _, [] => false
  | p :: ps, c :: cs => p == c && matchesLead ps cs

/-- Does the pattern occur anywhere in the character list? -/
def hasSub (pat : List Char) : List Char → Bool
  | [] => matchesLead pat []
  | c :: tl => matchesLead pat (c :: tl) || hasSub pat tl

/-- Model of JavaScript String.prototype.includes. -/
def strIncludes (s pat : String) : Bool :=
  hasSub pat.toList s.toList

/-! ### Identifier classification (src/hooks/useApi.ts)

Reconciliation (line 415) treats an id as temporary when it is a number
greater than 1e15; the sales dedup pass (lines 860-861) treats an id as a
server id when it is a string or a number strictly below 1e15. -/

/-- Reconciliation classifier: typeof localId is number and localId > 1e15. -/
def isTemporaryId : JsId → Bool
  | .num n => decide (10 ^ 15 < n)
  | .str _ => false

/-- Dedup-pass classifier: typeof id is string, or typeof id is number and
id < 1e15 (an undefined id is neither). -/
def isServerIdDedup : Option JsId → Bool
  | some (.str _) => true
  | some (.num n) => decide (n < 10 ^ 15)
  | none => false

/-! ### JavaScript Map model

Insertion-ordered association list with the semantics of Map.get / Map.set /
Map.delete: set on an existing key replaces the value in place, otherwise
appends. -/

/-- Model of Map.prototype.get. -/
def jsMapGet {V : Type} : List (String × V) → String → Option V
  | [], _ => none
  | (k', v') :: rest, k => if k' = k then some v' else jsMapGet rest k

/-- Model of Map.prototype.set. -/
def jsMapSet {V : Type} : List (String × V) → String → V → List (String × V)
  | [], k, v => [(k, v)]
  | (k', v') :: rest, k, v =>
    if k' = k then (k, v) :: rest else (k', v') :: jsMapSet rest k v

/-- Model of Map.prototype.delete (dropping every entry of the key). -/
def jsMapDelete {V : Type} (m : List (String × V)) (k : String) : List (String × V) :=
  m.filter (fun p => !(p.1 == k))

/-! ### Response cache (ApiCacheManager, src/lib/apiCache.ts)

Entries are keyed by endpoint plus stringified params; the params string is
taken as an input here since JSON.stringify is applied before keying. -/

/-- One cached response. -/
structure CacheEntry (D : Type) where
  data : D
  timestamp : Nat
  version : Nat
deriving Repr, DecidableEq

/-- 10 minutes, the default cache duration. -/
def CACHE_DURATION : Nat := 10 * 60 * 1000

/-- Maximum number of cached responses. -/
def MAX_CACHE_SIZE : Nat := 100

/-- The cache map in insertion order. -/
abbrev Cache (D : Type) := List (String × CacheEntry D)

/-- Model of getCacheKey: endpoint concatenated with the stringified params
(empty when params are absent). -/
def getCacheKey (endpoint : String) (params : Option String) : String :=
  endpoint ++ params.getD ""

/-- Model of ApiCacheManager.get: a missing key yields none; an entry older
than CACHE_DURATION is deleted and yields none; otherwise the entry is
returned.  The pair carries the possibly-updated cache. -/
def cacheGet {D : Type} (c : Cache D) (endpoint : String) (params : Option String)
    (now : Nat) : Cache D × Option (CacheEntry D) :=
  let key := getCacheKey endpoint params
  match jsMapGet c key with
  | none => (c, none)
  | some e =>
    if CACHE_DURATION < now - e.timestamp then (jsMapDelete c key, none)
    else (c, some e)

/-- First entry with the minimal timestamp (what the stable sort by
timestamp in ApiCacheManager.set picks as the eviction victim). -/
def oldestEntry {D : Type} (c : Cache D) : Option (String × CacheEntry D) :=
  c.foldl
    (fun acc p =>
      match acc with
      | none => some p
      | some q => if p.2.timestamp < q.2.timestamp then some p else some q)
    none

/-- Model of ApiCacheManager.set: evict the oldest entry when the size bound
is reached, bump the version of an overwritten key, store with the current
timestamp. -/
def cacheSet {D : Type} (c : Cache D) (endpoint : String) (dat : D)
    (params : Option String) (now : Nat) : Cache D :=
  let key := getCacheKey endpoint params
  let c1 :=
    if MAX_CACHE_SIZE ≤ c.length then
      match oldestEntry c with
      | some q => jsMapDelete c q.1
      | none => c
    else c
  let version :=
    match jsMapGet c1 key with
    | some e => e.version + 1
    | none => 1
  jsMapSet c1 key ⟨dat, now, version⟩

/-- Model of ApiCacheManager.invalidateStore: delete every entry whose key
contains the substring "/" ++ store. -/
def invalidateStore {D : Type} (c : Cache D) (store : String) : Cache D :=
  c.filter (fun p => !(strIncludes p.1 ("/" ++ store)))

/-! ### Request coordinator (RequestManager, src/lib/requestManager.ts)

Promises are identified by a counter so that "the same promise" is
expressible; timestamps are JS epoch milliseconds as integers. -/

/-- One in-flight request, as stored in pendingRequests. -/
structure PendingReq where
  promiseId : Nat
  timestamp : Int
  subscribers : Nat
deriving Repr, DecidableEq

/-- State of the RequestManager: the pending map plus the next promise
identity. -/
structure RMState where
  pending : List (String × PendingReq)
  nextPromise : Nat
deriving Repr, DecidableEq

/-- Dedupe window of 5 seconds. -/
def DEDUPE_WINDOW : Int := 5000

/-- Result of one execute call: the new state, which promise the caller
received, and whether the underlying requestFn was invoked by this call. -/
structure ExecResult where
  state : RMState
  promise : Nat
  invoked : Bool
deriving Repr, DecidableEq

/-- Model of RequestManager.execute.  A pending entry younger than the
dedupe window (when not forced) gains a subscriber and its promise is
returned without invoking the function; an expired entry is deleted first;
otherwise a new request is created and stored with one subscriber. -/
def executeRM (s : RMState) (key : String) (now : Int) (force : Bool) : ExecResult :=
  match jsMapGet s.pending key with
  | some p =>
    if force = false then
      if now - p.timestamp < DEDUPE_WINDOW then
        { state := { s with
            pending := jsMapSet s.pending key { p with subscribers := p.subscribers + 1 } }
          promise := p.promiseId
          invoked := false }
      else
        { state :=
            { pending := jsMapSet (jsMapDelete s.pending key) key ⟨s.nextPromise, now, 1⟩
              nextPromise := s.nextPromise + 1 }
          promise := s.nextPromise
          invoked := true }
    else
      { state := { pending := jsMapSet s.pending key ⟨s.nextPromise, now, 1⟩
                   nextPromise := s.nextPromise + 1 }
        promise := s.nextPromise
        invoked := true }
  | none =>
    { state := { pending := jsMapSet s.pending key ⟨s.nextPromise, now, 1⟩
                 nextPromise := s.nextPromise + 1 }
      promise := s.nextPromise
      invoked := true }

/-- Model of the delayed cleanup that runs DEDUPE_WINDOW after a request
settles: the entry is deleted when it has at most one subscriber, otherwise
the subscriber count is decremented. -/
def completeRequest (s : RMState) (key : String) : RMState :=
  match jsMapGet s.pending key with
  | some p =>
    if p.subscribers ≤ 1 then { s with pending := jsMapDelete s.pending key }
    else { s with pending := jsMapSet s.pending key { p with subscribers := p.subscribers - 1 } }
  | none => s

/-! ### Entity records and IndexedDB store semantics

A record as stored in an entity object store (keyPath "id",
src/lib/indexedDB.ts:12-19).  The domain payload fields used by the sales
dedup key are carried explicitly; mid models the _id field, idf the id
field, owner the userId field, tsStr the timestamp field. -/

/-- An entity record. -/
structure Rec where
  mid : Option String
  idf : Option JsId
  owner : Option String
  product : String
  date : String
  quantity : Nat
  revenue : Nat
  tsStr : Option String
deriving Repr, DecidableEq

/-- Model of the idiom item._id || item.id (the _id field falls through to
the id field when absent or falsy). -/
def rawEffId (r : Rec) : Option JsId :=
  match r.mid with
  | some s => if s = "" then r.idf else some (JsId.str s)
  | none => r.idf

/-- Model of item._id || item.id followed by a truthiness test on the
result (the id ? ... : null pattern). -/
def effIdT (r : Rec) : Option JsId :=
  match rawEffId r with
  | some v => if jsIdTruthy v then some v else none
  | none => none

/-- Model of the idiom item.id || item._id used at useApi.ts:743 (id field
first, then the _id field). -/
def rawIdThenMid (r : Rec) : Option JsId :=
  match r.idf with
  | some v => if jsIdTruthy v then some v else r.mid.map JsId.str
  | none => r.mid.map JsId.str

/-- Model of mapItem (useApi.ts:30-35): copy a truthy _id into a missing id
field. -/
def mapItem (r : Rec) : Rec :=
  match r.mid with
  | some s =>
    if s != "" && !(jsOptTruthy r.idf) then { r with idf := some (JsId.str s) } else r
  | none => r

/-- Attach the active user id to a record (the itemWithUserId pattern). -/
def withOwner (userId : String) (r : Rec) : Rec :=
  { r with owner := some userId }

/-- Model of deleteItem(store, k) for a numeric key: IndexedDB removes the
record whose key (its id field, keyPath "id") equals the number k.  A record
keyed by a string is never touched by a numeric delete. -/
def deleteNum (store : List Rec) (k : Nat) : List Rec :=
  store.filter (fun r => !(r.idf == some (JsId.num k)))

/-- The numeric conversion applied before deleteItem throughout useApi.ts:
a numeric id is used as is, a string id goes through parseInt (none models
NaN, which skips the delete). -/
def numericDeleteKey (v : JsId) : Option Nat :=
  match v with
  | .num n => some n
  | .str s => parseIntNat s

/-- Base-36 digit value of a character, if valid. -/
def base36Val (c : Char) : Option Nat :=
  if c.isDigit then some (c.toNat - 48)
  else if 97 ≤ c.toNat && c.toNat ≤ 122 then some (c.toNat - 87)
  else if 65 ≤ c.toNat && c.toNat ≤ 90 then some (c.toNat - 55)
  else none

/-- Leading base-36 digits of a character list. -/
def leadingBase36 : List Char → List Nat
  | [] => []
  | c :: cs =>
    match base36Val c with
    | some d => d :: leadingBase36 cs
    | none => []

/-- Model of JavaScript parseInt(s, 36) on inputs without leading whitespace
or sign; none models NaN. -/
def parseIntBase36 (s : String) : Option Nat :=
  match leadingBase36 s.toList with
  | [] => none
  | ds => some (ds.foldl (fun a d => a * 36 + d) 0)

/-- Numeric id derived by addItem/updateItem (indexedDB.ts:76-78, 111-113)
from a string _id when the id field is missing: base-36 parse of the last
ten characters for ids longer than ten characters, otherwise base-36 parse
of the whole string with Date.now() as fallback when that parse gives 0 or
NaN. -/
def deriveIdFromMid (s : String) (now : Nat) : Option Nat :=
  if 10 < s.length then parseIntBase36 (String.mk (s.toList.drop (s.toList.length - 10)))
  else
    match parseIntBase36 s with
    | some 0 => some now
    | none => some now
    | some n => some n

/-- Model of the id fixup of addItem/updateItem (indexedDB.ts:74-83): a
record with a falsy id gets one derived from its _id, or Date.now() plus a
random fraction (the fraction is dropped here) when no _id exists.  When the
base-36 parse of a long _id is NaN the code would store a NaN key; that
unreachable branch leaves the record unchanged here. -/
def fixupId (r : Rec) (now : Nat) : Rec :=
  if jsOptTruthy r.idf then r
  else
    match r.mid with
    | some s =>
      if s != "" then
        match deriveIdFromMid s now with
        | some n => { r with idf := some (JsId.num n) }
        | none => r
      else { r with idf := some (JsId.num now) }
    | none => { r with idf := some (JsId.num now) }

/-- Model of addItem on an entity store (add rejects on an existing key;
the error path leaves the store unchanged). -/
def addRec (store : List Rec) (r : Rec) (now : Nat) : List Rec :=
  let r1 := fixupId r now
  if store.any (fun q => q.idf == r1.idf) then store else store ++ [r1]

/-- Model of updateItem on an entity store (put upserts by key). -/
def putRec (store : List Rec) (r : Rec) (now : Nat) : List Rec :=
  let r1 := fixupId r now
  if store.any (fun q => q.idf == r1.idf) then
    store.map (fun q => if q.idf == r1.idf then r1 else q)
  else store ++ [r1]

/-! ### Owner filtering and the sales offline fallback (claim C3) -/

/-- Owner filter used by the read paths of useApi.ts (lines 100-108,
470-477, 1581-1586): keep exactly the records whose userId field equals the
active user id; records without a userId are excluded. -/
def ownerFiltered (userId : String) (localItems : List Rec) : List Rec :=
  localItems.filter (fun r => match r.owner with | some u => u == userId | none => false)

/-- Model of the sales connection-error fallback of loadData
(useApi.ts:499-511): when the sales API call fails with a connection error,
every record of the local store is surfaced after mapItem with no owner
filter at all.  The timestamp-descending sort applied there only permutes
the list and is omitted. -/
def salesOfflineFallbackSurfaced (localItems : List Rec) : List Rec :=
  localItems.map mapItem

/-- A record owned by the active user u1 (concrete evaluation data). -/
def mineRec : Rec :=
  { mid := some "aaa111aaa111aaa111aaa111", idf := some (JsId.str "aaa111aaa111aaa111aaa111")
    owner := some "u1", product := "Tea", date := "2024-01-03", quantity := 1, revenue := 30
    tsStr := some "2024-01-03T09:00:00.000Z" }

/-- A record owned by a different user u2, still present in the shared
store (concrete evaluation data). -/
def otherRec : Rec :=
  { mid := some "bbb222bbb222bbb222bbb222", idf := some (JsId.str "bbb222bbb222bbb222bbb222")
    owner := some "u2", product := "Juice", date := "2024-01-04", quantity := 3, revenue := 90
    tsStr := some "2024-01-04T09:00:00.000Z" }

/-! ### Sales content deduplication (useApi.ts:845-870) and the real-time
sale:created handler (useApi.ts:1699-1714) -/

/-- Characters before the first T, the semantics of date.split('T')[0]. -/
def takeUntilT : List Char → List Char
  | [] => []
  | c :: cs => if c = 'T' then [] else c :: takeUntilT cs

/-- Model of sale.date.split('T')[0]. -/
def dateDayStr (s : String) : String :=
  String.mk (takeUntilT s.toList)

/-- The content key of a sale: product, date truncated at the first T,
quantity and revenue joined by underscores, exactly as interpolated by the
code.  Dates are carried as strings here (the record payloads store ISO
strings, so the non-string Date branch of the code is not exercised). -/
def dedupKey (r : Rec) : String :=
  r.product ++ "_" ++ dateDayStr r.date ++ "_" ++ toString r.quantity ++ "_" ++ toString r.revenue

/-- One iteration of the seen-map loop of the dedup pass: on a key
collision the incoming record replaces the stored one only when the
incoming id classifies as a server id and the stored one does not. -/
def dedupStep (seen : List (String × Rec)) (item : Rec) : List (String × Rec) :=
  let k := dedupKey item
  match jsMapGet seen k with
  | some existing =>
    if isServerIdDedup (rawEffId item) && !(isServerIdDedup (rawEffId existing)) then
      jsMapSet seen k item
    else seen
  | none => jsMapSet seen k item

/-- Model of the dedup pass: fold the records through the seen map and read
the surviving values back in insertion order (Array.from(seen.values())). -/
def dedupSales (l : List Rec) : List Rec :=
  (l.foldl dedupStep []).map Prod.snd

/-- Model of the sale:created subscription handler (useApi.ts:1699-1714):
when the pushed sale has a truthy id, an existing record with the same
stringified id is replaced, otherwise the sale is prepended; there is no
content-based deduplication on this path. -/
def applySaleCreated (sale : Rec) (prev : List Rec) : List Rec :=
  if jsOptTruthy (rawEffId sale) then
    let sid := (rawEffId sale).map jsIdToString
    if prev.any (fun q => ((rawEffId q).map jsIdToString) == sid) then
      prev.map (fun q => if ((rawEffId q).map jsIdToString) == sid then sale else q)
    else sale :: prev
  else prev

/-- A sale created optimistically offline, carrying a temporary numeric id
produced by generateUniqueId (concrete evaluation data). -/
def tempSaleRec : Rec :=
  { mid := none, idf := some (JsId.num 17000000000000011), owner := some "u1"
    product := "Coffee", date := "2024-01-01", quantity := 2, revenue := 100
    tsStr := some "2024-01-01T10:00:00.000Z" }

/-- The server's version of the same sale, as delivered by replay or by a
sale:created push (concrete evaluation data). -/
def serverSaleRec : Rec :=
  { mid := some "665f1c2ab3d4e5f6a7b8c9d0", idf := some (JsId.str "665f1c2ab3d4e5f6a7b8c9d0")
    owner := some "u1", product := "Coffee", date := "2024-01-01T00:00:00.000Z", quantity := 2
    revenue := 100, tsStr := some "2024-01-01T10:00:00.000Z" }

/-! ### Merge-path reconciliation (useApi.ts:374-481) and the sales/products
fetch path (useApi.ts:287-311) -/

/-- mappedItems: the raw server response after mapItem. -/
def mappedItems (responseItems : List Rec) : List Rec :=
  responseItems.map mapItem

/-- serverIds (useApi.ts:384-387): the stringified truthy ids of the mapped
server items (with the owner attached first, as itemsWithUserId). -/
def serverIdStrings (userId : String) (responseItems : List Rec) : List String :=
  ((mappedItems responseItems).map (withOwner userId)).filterMap
    (fun i =>
      match rawEffId i with
      | some v => if jsIdTruthy v then some (jsIdToString v) else none
      | none => none)

/-- The numeric store key (if any) that one iteration of the cleanup loop
of the merge-path reconciliation (useApi.ts:390-442) deletes for the local
record li: an owner-mismatched record is deleted through the numeric
conversion of its id field; a record absent from the server ids is kept
when its id is temporary (number above 1e15) and otherwise deleted through
its id field, a string id going through parseInt first. -/
def cleanupDeleteKey (userId : String) (serverIds : List String) (li : Rec) : Option Nat :=
  let mismatch :=
    match li.owner with
    | some u => u != "" && u != userId
    | none => false
  if mismatch then
    match li.idf with
    | some v => if jsIdTruthy v then numericDeleteKey v else none
    | none => none
  else
    match rawEffId li with
    | some v =>
      if jsIdTruthy v && !(serverIds.contains (jsIdToString v)) then
        if isTemporaryId v then none
        else
          match li.idf with
          | some (JsId.num n) => if n != 0 then some n else none
          | some (JsId.str s) => if s != "" then parseIntNat s else none
          | none => none
      else none
    | none => none

/-- One iteration of the cleanup loop: perform the numeric delete it
decides on, if any. -/
def reconcileCleanupStep (userId : String) (serverIds : List String)
    (st : List Rec) (li : Rec) : List Rec :=
  match cleanupDeleteKey userId serverIds li with
  | some k => deleteNum st k
  | none => st

/-- One iteration of the upsert loop (useApi.ts:445-466): a server item
with a truthy id is put when some original local record has the same raw
id, added otherwise, the owner being attached first. -/
def reconcileUpsertStep (userId : String) (existing : List Rec) (now : Nat)
    (st : List Rec) (it : Rec) : List Rec :=
  match effIdT it with
  | none => st
  | some itemId =>
    let itW := withOwner userId it
    if existing.any (fun e => rawEffId e == some itemId) then putRec st itW now
    else addRec st itW now

/-- The store contents after the merge-path reconciliation: cleanup over the
snapshot of existing records, then upserts of the mapped server items. -/
def reconcileMergeStore (userId : String) (responseItems existing : List Rec)
    (now : Nat) : List Rec :=
  let serverIds := serverIdStrings userId responseItems
  let afterCleanup := existing.foldl (reconcileCleanupStep userId serverIds) existing
  (mappedItems responseItems).foldl (reconcileUpsertStep userId existing now) afterCleanup

/-- The records surfaced after the merge-path reconciliation
(useApi.ts:469-480): the reloaded store filtered to the active owner and
mapped. -/
def reconcileSurfaced (userId : String) (responseItems existing : List Rec)
    (now : Nat) : List Rec :=
  (ownerFiltered userId (reconcileMergeStore userId responseItems existing now)).map mapItem

/-- Model of the sales/products fetch reconciliation (useApi.ts:287-311):
clearStore empties the collection store — discarding every local record,
including not-yet-synced temporary ones — then the server records (mapped,
with the owner attached) are re-inserted one by one. -/
def salesFetchStore (userId : String) (responseItems existing : List Rec)
    (now : Nat) : List Rec :=
  ((mappedItems responseItems).map (withOwner userId)).foldl (fun st it => addRec st it now) []

/-- A settled record, carrying a Mongo string id, absent from the fresh
server response (concrete evaluation data). -/
def settledAbsentRec : Rec :=
  { mid := some "abc123def456abc123def456", idf := some (JsId.str "abc123def456abc123def456")
    owner := some "u1", product := "Gone", date := "2024-01-02", quantity := 1, revenue := 50
    tsStr := none }

/-- A legacy record with a small numeric id and no Mongo id (concrete
evaluation data). -/
def legacyRec : Rec :=
  { mid := none, idf := some (JsId.num 12345), owner := some "u1"
    product := "Old", date := "2023-12-31", quantity := 1, revenue := 10, tsStr := none }

/-! ### Mutation queue and sync manager (src/lib/syncManager.ts) -/

/-- The kind of a queued mutation. -/
inductive ActionType where
  | create
  | update
  | delete
deriving Repr, DecidableEq

/-- A queued sync action (syncManager.ts:6-13); qid models the
auto-incremented id assigned by the syncQueue object store. -/
structure SyncAction where
  qid : Option Nat
  actionType : ActionType
  store : String
  data : Rec
  timestamp : Nat
  synced : Bool
deriving Repr, DecidableEq

/-- The syncQueue store plus its auto-increment key generator. -/
structure QueueState where
  actions : List SyncAction
  nextQid : Nat
deriving Repr, DecidableEq

/-- Observable events of the queueing and replay machinery, used to state
ordering properties. -/
inductive SyncEv where
  | enqueued (qid : Nat)
  | replayAttempt (qid : Nat)
  | markedSynced (qid : Nat)
deriving Repr, DecidableEq

/-- Model of markAsSynced (syncManager.ts:202-213): the queued action with
the given id gets synced set to true. -/
def markSynced (qs : QueueState) (qid : Nat) : QueueState :=
  ⟨qs.actions.map (fun a => if a.qid == some qid then { a with synced := true } else a)
   , qs.nextQid⟩

/-- Model of SyncManager.queueAction (syncManager.ts:67-88): the action is
ALWAYS appended to the queue first (as pending, receiving the
auto-increment id); only then, when online and the id is truthy, a single
immediate replay of just this action is attempted, marking it synced on
success and leaving it pending on failure.  ok is the outcome of the
replay attempt; the event list records the order. -/
def queueAction (qs : QueueState) (online ok : Bool) (atype : ActionType)
    (storeName : String) (payload : Rec) (now : Nat) : QueueState × List SyncEv :=
  let qid := qs.nextQid
  let act : SyncAction := ⟨some qid, atype, storeName, payload, now, false⟩
  let qs1 : QueueState := ⟨qs.actions ++ [act], qs.nextQid + 1⟩
  if online && (qid != 0) then
    if ok then (markSynced qs1 qid, [.enqueued qid, .replayAttempt qid, .markedSynced qid])
    else (qs1, [.enqueued qid, .replayAttempt qid])
  else (qs1, [.enqueued qid])

/-- State of the SyncManager singleton. -/
structure SyncMgrState where
  isOnline : Bool
  syncInProgress : Bool
deriving Repr, DecidableEq

/-- The replay loop of syncAll (syncManager.ts:240-253): before each action
navigator.onLine is consulted (indexed here by iteration number); a lost
connection breaks the loop.  Each attempted action is recorded once; a
successful attempt is marked synced when the action has an id.  Returns the
queue, the attempted ids in order, and whether the loop ended online.  The
entity-store side effects of a successful replay are modelled separately by
the add-flow functions. -/
def syncLoop (navOnline : Nat → Bool) (attemptOk : SyncAction → Bool) :
    List SyncAction → Nat → QueueState → QueueState × List (Option Nat) × Bool
  | [], _, qs => (qs, [], true)
  | a :: rest, i, qs =>
    if navOnline i = false then (qs, [], false)
    else
      let qs1 :=
        if attemptOk a then
          match a.qid with
          | some q => markSynced qs q
          | none => qs
        else qs
      let r := syncLoop navOnline attemptOk rest (i + 1) qs1
      (r.1, a.qid :: r.2.1, r.2.2)

/-- Model of the retention pruning after a syncAll pass
(syncManager.ts:255-264): when more than 100 synced actions exist, the
store is cleared and only the most recent 100 synced actions are re-added
(pending actions are lost by this pass, faithfully to the code). -/
def pruneQueue (qs : QueueState) : QueueState :=
  let syncedActions := qs.actions.filter (fun a => a.synced)
  if 100 < syncedActions.length then
    ⟨syncedActions.drop (syncedActions.length - 100), qs.nextQid⟩
  else qs

/-- Model of SyncManager.syncAll (syncManager.ts:216-270): an offline
navigator records the offline state and returns; a run already in progress
returns at once replaying nothing; otherwise the pending actions are
replayed in order (stopping when the connection drops), the retention bound
is applied, and the in-progress flag is cleared.  Returns the manager
state, the queue and the attempted ids. -/
def syncAllModel (navOnline : Nat → Bool) (attemptOk : SyncAction → Bool)
    (ms : SyncMgrState) (qs : QueueState) :
    SyncMgrState × QueueState × List (Option Nat) :=
  if navOnline 0 = false then ({ ms with isOnline := false }, qs, [])
  else if ms.syncInProgress then (ms, qs, [])
  else
    let pending := qs.actions.filter (fun a => !a.synced)
    if pending.isEmpty then (⟨true, false⟩, qs, [])
    else
      let r := syncLoop navOnline attemptOk pending 1 qs
      (⟨r.2.2, false⟩, pruneQueue r.1, r.2.1)

/-! ### The write path of useApi.ts (claims C4 and C9) -/

/-- A rejected API call as classified by the code. -/
structure ApiError where
  message : String
  connectionError : Bool
  silent : Bool
deriving Repr, DecidableEq

/-- Result observed by the caller of a data operation. -/
inductive OpResult where
  | ok
  | silentSaved (msg : String)
  | err (e : ApiError)
  | notAuth
  | busyReturn
deriving Repr, DecidableEq

/-- The entity collections served by useApi. -/
inductive Endpoint where
  | products
  | sales
  | clients
  | schedules
deriving Repr, DecidableEq

/-- The object-store name of an endpoint. -/
def epStore : Endpoint → String
  | .products => "products"
  | .sales => "sales"
  | .clients => "clients"
  | .schedules => "schedules"

/-- Model of the connectivity classification of add (useApi.ts:1056-1061):
offline navigator, a transport-failure message signature, or an explicit
connectionError mark. -/
def isNetworkError (online : Bool) (e : ApiError) : Bool :=
  !online || strIncludes e.message "Failed to fetch"
    || strIncludes e.message "NetworkError"
    || strIncludes e.message "Network request failed"
    || strIncludes e.message "Cannot record sales while offline"
    || e.connectionError

/-- The record actually written by add (useApi.ts:730-736): a generated
local id when both id and _id are missing, then the owner. -/
def localizedItem (uid : String) (item : Rec) (genId : Nat) : Rec :=
  let withId :=
    if !(jsOptTruthy item.idf) && !(jsOptTruthy (item.mid.map JsId.str)) then
      { item with idf := some (JsId.num genId) }
    else item
  withOwner uid withId

/-- The sales timestamp fixup (useApi.ts:739-741): a missing or falsy
timestamp is replaced by the current ISO timestamp. -/
def salesTimestampFix (r : Rec) (nowIso : String) : Rec :=
  match r.tsStr with
  | some t => if t != "" then r else { r with tsStr := some nowIso }
  | none => { r with tsStr := some nowIso }

/-- Model of add for the blocking endpoints — products, clients, schedules
(useApi.ts:709-1116).  The authentication gate runs first; the record is
saved to the store before the API call; a successful create removes the
temporary record (through the numeric conversion of its id) and inserts the
server record; a failed create is classified: network failures on clients
and schedules are queued (queueAction, which appends before its own replay
attempt) and surfaced as a silent saved-locally success, while products
rethrow the error unqueued, as do application failures.  Returns the store,
the queue, the caller-visible result and the queue events. -/
def addBlocking (ep : Endpoint) (userId : Option String) (st : List Rec) (qs : QueueState)
    (item : Rec) (genId now : Nat) (createResult : Except ApiError Rec)
    (online replayOk : Bool) : List Rec × QueueState × OpResult × List SyncEv :=
  match userId with
  | none => (st, qs, .notAuth, [])
  | some uid =>
    if uid = "" then (st, qs, .notAuth, [])
    else
      let itemWithId := localizedItem uid item genId
      let st1 := addRec st itemWithId now
      match createResult with
      | .ok respData =>
        let syncedItem := mapItem respData
        let localId := rawIdThenMid itemWithId
        let st2 :=
          if st1.any (fun q => rawEffId q == localId) then
            match localId with
            | some lv =>
              match numericDeleteKey lv with
              | some k => deleteNum st1 k
              | none => st1
            | none => st1
          else st1
        (addRec st2 (withOwner uid syncedItem) now, qs, .ok, [])
      | .error e =>
        let isNet := isNetworkError online e
        if (ep == Endpoint.sales) && isNet then
          let q := queueAction qs online replayOk .create (epStore ep) itemWithId now
          (st1, q.1, .silentSaved "Sale saved locally. Will sync when online.", q.2)
        else if ep == Endpoint.products then (st1, qs, .err e, [])
        else if isNet then
          let q := queueAction qs online replayOk .create (epStore ep) itemWithId now
          (st1, q.1, .silentSaved "Item saved locally. Will sync when online.", q.2)
        else (st1, qs, .err e, [])

/-- Model of add for the sales endpoint (useApi.ts:758-893): after the
authentication gate, the record (with generated id, owner and timestamp) is
saved to the store and the call RETURNS SUCCESS IMMEDIATELY — the API
create runs fire-and-forget in the background. -/
def addSalesFireForget (userId : Option String) (st : List Rec) (qs : QueueState)
    (item : Rec) (genId now : Nat) (nowIso : String) :
    List Rec × QueueState × OpResult :=
  match userId with
  | none => (st, qs, .notAuth)
  | some uid =>
    if uid = "" then (st, qs, .notAuth)
    else
      let itemWithId := salesTimestampFix (localizedItem uid item genId) nowIso
      (addRec st itemWithId now, qs, .ok)

/-- Background continuation of the fire-and-forget sales create when the
API call rejects (useApi.ts:884-888): the failure is only logged — the
store and the queue are left untouched and nothing is enqueued. -/
def salesCreateFailureBackground (st : List Rec) (qs : QueueState) :
    List Rec × QueueState :=
  (st, qs)

/-- The authentication gate shared by update (useApi.ts:1120-1124), remove
(useApi.ts:1246-1250) and bulkAdd (useApi.ts:1368-1372): the user id is
read synchronously first and a missing or empty id fails with the
not-authenticated error before the body — which receives the id — can touch
the store, the queue or the network. -/
def mutationAuthGate (userId : Option String) (st : List Rec) (qs : QueueState)
    (body : String → List Rec × QueueState × Nat × OpResult) :
    List Rec × QueueState × Nat × OpResult :=
  match userId with
  | none => (st, qs, 0, .notAuth)
  | some uid =>
    if uid = "" then (st, qs, 0, .notAuth) else body uid

/-- The entry of loadData (useApi.ts:38-51): a load already in progress
returns silently; otherwise the user id is validated before anything else,
its absence failing with the not-authenticated error and default items
while the store, the queue and the network are untouched. -/
def loadDataStart (busy : Bool) (userId : Option String) (st : List Rec) (qs : QueueState)
    (body : String → List Rec × QueueState × Nat × OpResult) :
    List Rec × QueueState × Nat × OpResult :=
  if busy then (st, qs, 0, .busyReturn)
  else
    match userId with
    | none => (st, qs, 0, .notAuth)
    | some uid =>
      if uid = "" then (st, qs, 0, .notAuth) else body uid

/-- A transport-level failure as produced by a failed fetch. -/
def netFailErr : ApiError := ⟨"Failed to fetch", false, false⟩

/-- A fresh item as passed to add, with no ids yet (concrete evaluation
data). -/
def draftItemRec : Rec :=
  { mid := none, idf := none, owner := none, product := "Chair"
    date := "2024-02-01", quantity := 1, revenue := 200, tsStr := none }

/-! ### Theorems -/

/-- Claim C1: the identifier generator does NOT guarantee pairwise-distinct,
strictly increasing identifiers.  Starting from the initial counter, eleven
calls in the same millisecond t = 1700000000000 where the first call draws
random = 1 and the eleventh draws random = 0 produce equal identifiers
(both t * 10000 + 11); and two calls in the same millisecond drawing
random = 999 then random = 0 produce a strictly decreasing pair.  This
contradicts the code's own comments, which promise unique ids even for
multiple items created in the same millisecond. -/
theorem C1_idGenerator_collision_and_decrease :
    (runGen ⟨0⟩ ((1700000000000, 1) :: List.replicate 10 (1700000000000, 0)))[0]? =
      some 17000000000000011
    ∧ (runGen ⟨0⟩ ((1700000000000, 1) :: List.replicate 10 (1700000000000, 0)))[10]? =
      some 17000000000000011
    ∧ runGen ⟨0⟩ [(1700000000000, 999), (1700000000000, 0)] =
      [17000000000009991, 17000000000000002]
    ∧ 17000000000000002 < 17000000000009991 := by
  refine ⟨by decide, by decide, by decide, by decide⟩

/-- Claim C10 (counterexample): the numeric identifier exactly 10^15 is not
classified as temporary by the reconciliation classifier and is also not
classified as a server id by the dedup classifier, yet it is not greater
than 10^15 — so the two classifiers do not both classify an id as temporary
exactly when it is a number greater than 10^15. -/
theorem C10_boundary_counterexample :
    isTemporaryId (JsId.num (10 ^ 15)) = false
    ∧ isServerIdDedup (some (JsId.num (10 ^ 15))) = false
    ∧ ¬ 10 ^ 15 < 10 ^ 15 := by
  refine ⟨by decide, by decide, by decide⟩

/-- Claim C10 (amended): whenever the clock reads more than 10^11
milliseconds (true at every instant after March 1973), every identifier
produced by generateUniqueId exceeds 10^15; the reconciliation classifier
marks it temporary and the dedup classifier marks it non-server.  The
reconciliation classifier holds of a number exactly when it is greater than
10^15, while the dedup classifier counts every string as a server id and
draws its numeric boundary at strictly-less-than 10^15, so the two agree
everywhere except at the single value 10^15. -/
theorem C10_generated_ids_are_temporary (timestamp random n : Nat) (srv : String)
    (s : GenState) (ht : 10 ^ 11 < timestamp) :
    10 ^ 15 < (generateUniqueId timestamp random s).1
    ∧ isTemporaryId (JsId.num (generateUniqueId timestamp random s).1) = true
    ∧ isServerIdDedup (some (JsId.num (generateUniqueId timestamp random s).1)) = false
    ∧ (isTemporaryId (JsId.num n) = true ↔ 10 ^ 15 < n)
    ∧ isServerIdDedup (some (JsId.str srv)) = true := by
  have hbig : 10 ^ 15 < (generateUniqueId timestamp random s).1 := by
    have h1 : 10 ^ 11 + 1 ≤ timestamp := ht
    have h2 : (10 ^ 11 + 1) * 10000 ≤ timestamp * 10000 :=
      Nat.mul_le_mul_right 10000 h1
    have h3 : 10 ^ 15 < (10 ^ 11 + 1) * 10000 := by norm_num
    have h4 : 10 ^ 15 < timestamp * 10000 := lt_of_lt_of_le h3 h2
    show 10 ^ 15 < timestamp * 10000 + random * 10 + (s.counter + 1) % MAX_COUNTER
    omega
  refine ⟨hbig, ?_, ?_, ?_, rfl⟩
  · simp only [isTemporaryId, decide_eq_true_eq]
    exact hbig
  · simp only [isServerIdDedup, decide_eq_false_iff_not]
    omega
  · simp only [isTemporaryId, decide_eq_true_eq]

/-- Witness for C10: the amended statement holds at a concrete 2023 clock
value and at the boundary-adjacent number 10^15 + 1. -/
theorem C10_generated_ids_are_temporary_witness :
    10 ^ 15 < (generateUniqueId 1700000000000 42 ⟨0⟩).1
    ∧ isTemporaryId (JsId.num (generateUniqueId 1700000000000 42 ⟨0⟩).1) = true
    ∧ isServerIdDedup (some (JsId.num (generateUniqueId 1700000000000 42 ⟨0⟩).1)) = false
    ∧ (isTemporaryId (JsId.num (10 ^ 15 + 1)) = true ↔ 10 ^ 15 < 10 ^ 15 + 1)
    ∧ isServerIdDedup (some (JsId.str "665f1c2ab3d4e5f6a7b8c9d0")) = true :=
  C10_generated_ids_are_temporary 1700000000000 42 (10 ^ 15 + 1)
    "665f1c2ab3d4e5f6a7b8c9d0" ⟨0⟩ (by norm_num)

theorem jsMapGet_set_self {V : Type} (m : List (String × V)) (k : String) (v : V) :
    jsMapGet (jsMapSet m k v) k = some v := by
  induction m with
  | nil => simp [jsMapGet, jsMapSet]
  | cons hd tl ih =>
    by_cases h : hd.1 = k
    · simp [jsMapSet, jsMapGet, h]
    · simpa [jsMapSet, jsMapGet, h] using ih

theorem jsMapGet_filter_none {V : Type} (m : List (String × V)) (f : String → Bool)
    (k : String) (hk : f k = false) :
    jsMapGet (m.filter (fun p => f p.1)) k = none := by
  induction m with
  | nil => simp [jsMapGet]
  | cons hd tl ih =>
    by_cases h : hd.1 = k
    · rw [List.filter_cons, h, hk]
      simpa using ih
    · rw [List.filter_cons]
      cases hf : f hd.1 <;> simp [jsMapGet, h, ih]

theorem jsMapGet_filter_keep {V : Type} (m : List (String × V)) (f : String → Bool)
    (k : String) (hk : f k = true) :
    jsMapGet (m.filter (fun p => f p.1)) k = jsMapGet m k := by
  induction m with
  | nil => simp
  | cons hd tl ih =>
    by_cases h : hd.1 = k
    · rw [List.filter_cons, h, hk]
      simp [jsMapGet, h]
    · rw [List.filter_cons]
      cases hf : f hd.1 <;> simp [jsMapGet, h, ih]

/-- Claim C8 (counterexample): the spec scenario fails on the code.  With the
literal key "sales", set('sales', data) followed by get('sales') within the
expiry window does return the data, but after invalidateStore('sales') the
entry is still there — invalidateStore only removes keys containing the
substring "/sales", which the key "sales" does not contain — so get('sales')
still returns the data instead of absent. -/
theorem C8_invalidate_scenario_counterexample :
    (cacheGet (cacheSet ([] : Cache Nat) "sales" 7 none 1000) "sales" none 2000).2
      = some ⟨7, 1000, 1⟩
    ∧ (cacheGet (invalidateStore (cacheSet ([] : Cache Nat) "sales" 7 none 1000) "sales")
        "sales" none 2000).2 = some ⟨7, 1000, 1⟩ := by
  refine ⟨by decide, by decide⟩

/-- Claim C8 (amended): set followed by get of the same endpoint and params
within the expiry window returns the stored data; invalidateStore(store)
removes exactly the entries whose key contains the substring "/" ++ store —
so the keys of shape "/sales" actually used by the data layer (its cache key
is "/" ++ endpoint) are removed, while a key lacking the slash survives.  In
particular a fresh entry stored under the key "/sales" is gone after
invalidateStore("sales"). -/
theorem C8_cache_set_get_invalidate (c : Cache Nat) (ep store k : String) (d t now : Nat)
    (ps : Option String) (hfresh : now - t ≤ CACHE_DURATION) :
    ((cacheGet (cacheSet c ep d ps t) ep ps now).2).map CacheEntry.data = some d
    ∧ (strIncludes k ("/" ++ store) = true → jsMapGet (invalidateStore c store) k = none)
    ∧ (strIncludes k ("/" ++ store) = false →
        jsMapGet (invalidateStore c store) k = jsMapGet c k)
    ∧ jsMapGet (invalidateStore (cacheSet ([] : Cache Nat) "/sales" d none t) "sales")
        "/sales" = none := by
  refine ⟨?_, ?_, ?_, ?_⟩
  · simp only [cacheGet, cacheSet]
    rw [jsMapGet_set_self]
    simp [Nat.not_lt.mpr hfresh]
  · intro hk
    exact jsMapGet_filter_none c (fun key => !(strIncludes key ("/" ++ store))) k
      (by simp [hk])
  · intro hk
    exact jsMapGet_filter_keep c (fun key => !(strIncludes key ("/" ++ store))) k
      (by simp [hk])
  · exact jsMapGet_filter_none _ (fun key => !(strIncludes key ("/" ++ "sales"))) _
      (by decide)

/-- Witness for C8: the amended statement, evaluated at a one-entry cache and
the keys "sales" and "/sales". -/
theorem C8_cache_set_get_invalidate_witness :
    ((cacheGet (cacheSet ([] : Cache Nat) "sales" 7 none 1000) "sales" none 2000).2).map
      CacheEntry.data = some 7
    ∧ (strIncludes "sales" ("/" ++ "sales") = true →
        jsMapGet (invalidateStore ([] : Cache Nat) "sales") "sales" = none)
    ∧ (strIncludes "sales" ("/" ++ "sales") = false →
        jsMapGet (invalidateStore ([] : Cache Nat) "sales") "sales" =
          jsMapGet ([] : Cache Nat) "sales")
    ∧ jsMapGet (invalidateStore (cacheSet ([] : Cache Nat) "/sales" 7 none 1000) "sales")
        "/sales" = none :=
  C8_cache_set_get_invalidate ([] : Cache Nat) "sales" "sales" "sales" 7 1000 2000 none
    (by decide)

/-- Claim C7: when execute(key, fn) is called on a key with no pending entry
and then called again (unforced) within the dedupe window while the first
request is still pending, the first call invokes fn, the second call does
not invoke anything, both callers receive the same promise, and the entry
records two subscribers — fn runs exactly once. -/
theorem C7_execute_dedupes_within_window (s : RMState) (key : String) (t0 t1 : Int)
    (hkey : jsMapGet s.pending key = none) (hwin : t1 - t0 < DEDUPE_WINDOW) :
    (executeRM s key t0 false).invoked = true
    ∧ (executeRM (executeRM s key t0 false).state key t1 false).invoked = false
    ∧ (executeRM (executeRM s key t0 false).state key t1 false).promise =
        (executeRM s key t0 false).promise
    ∧ (jsMapGet (executeRM (executeRM s key t0 false).state key t1 false).state.pending
        key).map PendingReq.subscribers = some 2 := by
  have h1 : executeRM s key t0 false =
      { state := { pending := jsMapSet s.pending key ⟨s.nextPromise, t0, 1⟩
                   nextPromise := s.nextPromise + 1 }
        promise := s.nextPromise
        invoked := true } := by
    unfold executeRM
    rw [hkey]
  have hget : jsMapGet (jsMapSet s.pending key ⟨s.nextPromise, t0, 1⟩) key =
      some ⟨s.nextPromise, t0, 1⟩ := jsMapGet_set_self s.pending key _
  have h2 : executeRM (executeRM s key t0 false).state key t1 false =
      { state := { pending := jsMapSet (jsMapSet s.pending key ⟨s.nextPromise, t0, 1⟩) key
                     ⟨s.nextPromise, t0, 2⟩
                   nextPromise := s.nextPromise + 1 }
        promise := s.nextPromise
        invoked := false } := by
    rw [h1]
    unfold executeRM
    simp [hget, hwin]
  refine ⟨by rw [h1], by rw [h2], by rw [h2, h1], ?_⟩
  rw [h2]
  simp [jsMapGet_set_self]

/-- Witness for C7: two calls on the key "k" at times 0 and 4999 starting
from the empty manager state. -/
theorem C7_execute_dedupes_within_window_witness :
    (executeRM ⟨[], 0⟩ "k" 0 false).invoked = true
    ∧ (executeRM (executeRM ⟨[], 0⟩ "k" 0 false).state "k" 4999 false).invoked = false
    ∧ (executeRM (executeRM ⟨[], 0⟩ "k" 0 false).state "k" 4999 false).promise =
        (executeRM ⟨[], 0⟩ "k" 0 false).promise
    ∧ (jsMapGet (executeRM (executeRM ⟨[], 0⟩ "k" 0 false).state "k" 4999 false).state.pending
        "k").map PendingReq.subscribers = some 2 :=
  C7_execute_dedupes_within_window ⟨[], 0⟩ "k" 0 4999 rfl (by decide)

/-- Claim C3 (failing input): a sales collection load that falls into the
connection-error fallback surfaces a record owned by a different user — the
fallback reads the whole store and applies no owner filter — whereas the
owner filter used by the other read paths would have excluded it. -/
theorem C3_owner_isolation_fallback_leak :
    salesOfflineFallbackSurfaced [mineRec, otherRec] = [mineRec, otherRec]
    ∧ otherRec ∈ salesOfflineFallbackSurfaced [mineRec, otherRec]
    ∧ otherRec.owner = some "u2"
    ∧ "u2" ≠ "u1"
    ∧ ownerFiltered "u1" [mineRec, otherRec] = [mineRec] := by
  refine ⟨by decide, by decide, by decide, by decide, by decide⟩

/-- Claim C5 (counterexample): a real-time sale:created push whose sale
matches an already-applied optimistic local sale by content — equal
(product, day, quantity, revenue) key — but carries the server id leaves TWO
records in the collection, because the push handler deduplicates by id
only; no deduplication pass runs on this path. -/
theorem C5_push_leaves_duplicate :
    applySaleCreated serverSaleRec [tempSaleRec] = [serverSaleRec, tempSaleRec]
    ∧ dedupKey serverSaleRec = dedupKey tempSaleRec
    ∧ isServerIdDedup (rawEffId serverSaleRec) = true
    ∧ isServerIdDedup (rawEffId tempSaleRec) = false
    ∧ (applySaleCreated serverSaleRec [tempSaleRec]).length = 2 := by
  refine ⟨by decide, by decide, by decide, by decide, by decide⟩

/-- Claim C5 (amended): when the dedup pass itself — which runs on the
direct-create response paths of add and bulkAdd, not on the real-time push
path — processes a collection holding two records with equal content keys,
one classified as carrying a server id and one not, it keeps exactly the
server-id record, in either input order. -/
theorem C5_dedup_pass_keeps_server_record (a b : Rec)
    (hk : dedupKey a = dedupKey b)
    (ha : isServerIdDedup (rawEffId a) = true)
    (hb : isServerIdDedup (rawEffId b) = false) :
    dedupSales [b, a] = [a] ∧ dedupSales [a, b] = [a] := by
  constructor
  · simp [dedupSales, dedupStep, jsMapGet, jsMapSet, hk, ha, hb]
  · simp [dedupSales, dedupStep, jsMapGet, jsMapSet, hk.symm, ha, hb]

/-- Witness for C5: the amended statement at the concrete optimistic sale
and its server twin. -/
theorem C5_dedup_pass_keeps_server_record_witness :
    dedupSales [tempSaleRec, serverSaleRec] = [serverSaleRec]
    ∧ dedupSales [serverSaleRec, tempSaleRec] = [serverSaleRec] :=
  C5_dedup_pass_keeps_server_record serverSaleRec tempSaleRec (by decide) (by decide) (by decide)

theorem mem_deleteNum_of_ne {st : List Rec} {r : Rec} {k : Nat}
    (h : r ∈ st) (hne : r.idf ≠ some (JsId.num k)) : r ∈ deleteNum st k := by
  simp [deleteNum, List.mem_filter, h, hne]

theorem not_mem_deleteNum_self {st : List Rec} {r : Rec} {k : Nat}
    (h : r.idf = some (JsId.num k)) : r ∉ deleteNum st k := by
  simp [deleteNum, List.mem_filter, h]

theorem not_mem_deleteNum_of_not_mem {st : List Rec} {r : Rec} {k : Nat}
    (h : r ∉ st) : r ∉ deleteNum st k :=
  fun hx => h (List.mem_of_mem_filter hx)

theorem mem_cleanupStep {userId : String} {sids : List String} {st : List Rec}
    {li r : Rec} (h : r ∈ st)
    (hk : ∀ k, cleanupDeleteKey userId sids li = some k → r.idf ≠ some (JsId.num k)) :
    r ∈ reconcileCleanupStep userId sids st li := by
  unfold reconcileCleanupStep
  cases hc : cleanupDeleteKey userId sids li with
  | none => exact h
  | some k => exact mem_deleteNum_of_ne h (hk k hc)

theorem not_mem_cleanupStep {userId : String} {sids : List String} {st : List Rec}
    {li r : Rec} (h : r ∉ st) :
    r ∉ reconcileCleanupStep userId sids st li := by
  unfold reconcileCleanupStep
  cases hc : cleanupDeleteKey userId sids li with
  | none => exact h
  | some k => exact not_mem_deleteNum_of_not_mem h

theorem mem_cleanupFold {userId : String} {sids : List String} (lis : List Rec)
    (st : List Rec) (r : Rec) (h : r ∈ st)
    (hk : ∀ li ∈ lis, ∀ k, cleanupDeleteKey userId sids li = some k →
      r.idf ≠ some (JsId.num k)) :
    r ∈ lis.foldl (reconcileCleanupStep userId sids) st := by
  induction lis generalizing st with
  | nil => exact h
  | cons a tl ih =>
    simp only [List.foldl_cons]
    exact ih _ (mem_cleanupStep h (hk a (by simp)))
      (fun li hli => hk li (by simp [hli]))

theorem not_mem_cleanupFold {userId : String} {sids : List String} (lis : List Rec)
    (st : List Rec) (r : Rec) (h : r ∉ st) :
    r ∉ lis.foldl (reconcileCleanupStep userId sids) st := by
  induction lis generalizing st with
  | nil => exact h
  | cons a tl ih =>
    simp only [List.foldl_cons]
    exact ih _ (not_mem_cleanupStep h)

theorem mem_addRec_of_mem {st : List Rec} {r q : Rec} {now : Nat}
    (h : r ∈ st) : r ∈ addRec st q now := by
  simp only [addRec]
  split
  · exact h
  · exact List.mem_append_left _ h

theorem mem_of_mem_addRec {st : List Rec} {r q : Rec} {now : Nat}
    (h : r ∈ addRec st q now) : r ∈ st ∨ r = fixupId q now := by
  simp only [addRec] at h
  split at h
  · exact Or.inl h
  · rcases List.mem_append.mp h with h1 | h1
    · exact Or.inl h1
    · exact Or.inr (List.mem_singleton.mp h1)

theorem mem_putRec_of_ne {st : List Rec} {r q : Rec} {now : Nat}
    (h : r ∈ st) (hne : (fixupId q now).idf ≠ r.idf) : r ∈ putRec st q now := by
  simp only [putRec]
  split
  · refine List.mem_map.mpr ⟨r, h, ?_⟩
    rw [if_neg]
    simp only [beq_iff_eq]
    exact fun hh => hne hh.symm
  · exact List.mem_append_left _ h

theorem mem_of_mem_putRec {st : List Rec} {r q : Rec} {now : Nat}
    (h : r ∈ putRec st q now) : r ∈ st ∨ r = fixupId q now := by
  simp only [putRec] at h
  split at h
  · rcases List.mem_map.mp h with ⟨x, hx, hxr⟩
    by_cases hc : (x.idf == (fixupId q now).idf) = true
    · rw [if_pos hc] at hxr
      exact Or.inr hxr.symm
    · rw [if_neg hc] at hxr
      exact Or.inl (hxr ▸ hx)
  · rcases List.mem_append.mp h with h1 | h1
    · exact Or.inl h1
    · exact Or.inr (List.mem_singleton.mp h1)

theorem mem_upsertStep {userId : String} {existing st : List Rec} {it r : Rec} {now : Nat}
    (h : r ∈ st) (hne : (fixupId (withOwner userId it) now).idf ≠ r.idf) :
    r ∈ reconcileUpsertStep userId existing now st it := by
  unfold reconcileUpsertStep
  cases effIdT it with
  | none => exact h
  | some i =>
    simp only []
    split
    · exact mem_putRec_of_ne h hne
    · exact mem_addRec_of_mem h

theorem not_mem_upsertStep {userId : String} {existing st : List Rec} {it r : Rec} {now : Nat}
    (h : r ∉ st) (hne : fixupId (withOwner userId it) now ≠ r) :
    r ∉ reconcileUpsertStep userId existing now st it := by
  unfold reconcileUpsertStep
  cases effIdT it with
  | none => exact h
  | some i =>
    simp only []
    split
    · intro hx
      rcases mem_of_mem_putRec hx with h1 | h1
      · exact h h1
      · exact hne h1.symm
    · intro hx
      rcases mem_of_mem_addRec hx with h1 | h1
      · exact h h1
      · exact hne h1.symm

theorem mem_upsertFold {userId : String} {existing : List Rec} {now : Nat}
    (items : List Rec) (st : List Rec) (r : Rec) (h : r ∈ st)
    (hne : ∀ it ∈ items, (fixupId (withOwner userId it) now).idf ≠ r.idf) :
    r ∈ items.foldl (reconcileUpsertStep userId existing now) st := by
  induction items generalizing st with
  | nil => exact h
  | cons a tl ih =>
    simp only [List.foldl_cons]
    exact ih _ (mem_upsertStep h (hne a (by simp)))
      (fun it hit => hne it (by simp [hit]))

theorem not_mem_upsertFold {userId : String} {existing : List Rec} {now : Nat}
    (items : List Rec) (st : List Rec) (r : Rec) (h : r ∉ st)
    (hne : ∀ it ∈ items, fixupId (withOwner userId it) now ≠ r) :
    r ∉ items.foldl (reconcileUpsertStep userId existing now) st := by
  induction items generalizing st with
  | nil => exact h
  | cons a tl ih =>
    simp only [List.foldl_cons]
    exact ih _ (not_mem_upsertStep h (hne a (by simp)))
      (fun it hit => hne it (by simp [hit]))

/-- Claim C2 (counterexample): a record with a settled (string) server id,
absent from the fresh server response, is NOT deleted by the merge-path
reconciliation — the deletion converts the id through parseInt, which
yields NaN on this Mongo id, and a numeric key could never match a string
store key anyway — while on the sales fetch path a temporary, not-yet-synced
record is destroyed because the store is cleared wholesale. -/
theorem C2_reconciliation_counterexample :
    reconcileMergeStore "u1" [] [settledAbsentRec] 0 = [settledAbsentRec]
    ∧ isTemporaryId (JsId.str "abc123def456abc123def456") = false
    ∧ salesFetchStore "u1" [] [tempSaleRec] 0 = [] := by
  refine ⟨by decide, by decide, by decide⟩

/-- Claim C2 (amended): on the merge-path reconciliation (the non-sales,
non-products endpoints), a local record of the active user whose id is a
number above 10^15 and absent from the server ids is preserved (provided no
other record's delete key collides with it and no server item lands on its
key); a local record with a nonzero numeric id at most 10^15 absent from
the server ids is deleted; but a record keyed by a STRING id — the shape of
every settled server id — absent from the server response is NOT deleted,
because the delete path converts ids to numbers and a numeric delete can
never match a string store key.  On the sales/products path the fetch
clears the store wholesale, so with an empty server response nothing
survives, not even temporary records. -/
theorem C2_merge_reconciliation (userId : String) (server existing : List Rec)
    (rt rs rd : Rec) (nt ns now : Nat) (sd : String)
    (hmt : rt ∈ existing) (hidt : rt.idf = some (JsId.num nt)) (hnt : 10 ^ 15 < nt)
    (hkeys : ∀ li ∈ existing,
      cleanupDeleteKey userId (serverIdStrings userId server) li ≠ some nt)
    (hupt : ∀ it ∈ mappedItems server, (fixupId (withOwner userId it) now).idf ≠ rt.idf)
    (hms : rs ∈ existing) (hos : rs.owner = some userId)
    (hids : rs.idf = some (JsId.num ns)) (hmids : rs.mid = none)
    (hns : 0 < ns) (hns2 : ns ≤ 10 ^ 15)
    (habs : (serverIdStrings userId server).contains (toString ns) = false)
    (hups : ∀ it ∈ mappedItems server, fixupId (withOwner userId it) now ≠ rs)
    (hmd : rd ∈ existing) (hidd : rd.idf = some (JsId.str sd))
    (habd : (serverIdStrings userId server).contains sd = false)
    (hupd : ∀ it ∈ mappedItems server, (fixupId (withOwner userId it) now).idf ≠ rd.idf) :
    rt ∈ reconcileMergeStore userId server existing now
    ∧ rs ∉ reconcileMergeStore userId server existing now
    ∧ rd ∈ reconcileMergeStore userId server existing now
    ∧ salesFetchStore userId [] existing now = [] := by
  refine ⟨?_, ?_, ?_, rfl⟩
  · simp only [reconcileMergeStore]
    apply mem_upsertFold _ _ _ ?_ hupt
    apply mem_cleanupFold _ _ _ hmt
    intro li hli k hk
    have hk' : k ≠ nt := fun he => hkeys li hli (he ▸ hk)
    rw [hidt]
    simp only [ne_eq, Option.some.injEq, JsId.num.injEq]
    omega
  · have hns0 : (ns != 0) = true := by simp; omega
    have htmp : isTemporaryId (JsId.num ns) = false := by
      simp only [isTemporaryId, decide_eq_false_iff_not]
      omega
    have hself : cleanupDeleteKey userId (serverIdStrings userId server) rs = some ns := by
      simp only [cleanupDeleteKey, hos, hmids, hids, rawEffId, bne_self_eq_false,
        Bool.and_false, jsIdTruthy, jsIdToString, habs, htmp, hns0]
      simp
    obtain ⟨l1, l2, hsplit⟩ := List.append_of_mem hms
    simp only [reconcileMergeStore]
    apply not_mem_upsertFold _ _ _ ?_ hups
    rw [hsplit, List.foldl_append]
    simp only [List.foldl_cons]
    apply not_mem_cleanupFold
    simp only [reconcileCleanupStep, hself]
    exact not_mem_deleteNum_self hids
  · simp only [reconcileMergeStore]
    apply mem_upsertFold _ _ _ ?_ hupd
    apply mem_cleanupFold _ _ _ hmd
    intro li hli k hk
    rw [hidd]
    simp

/-- Witness for C2: the amended statement, evaluated on a store holding a
temporary sale, a legacy numeric record and a settled string-id record,
against an empty server response. -/
theorem C2_merge_reconciliation_witness :
    tempSaleRec ∈ reconcileMergeStore "u1" [] [tempSaleRec, legacyRec, settledAbsentRec] 0
    ∧ legacyRec ∉ reconcileMergeStore "u1" [] [tempSaleRec, legacyRec, settledAbsentRec] 0
    ∧ settledAbsentRec ∈
        reconcileMergeStore "u1" [] [tempSaleRec, legacyRec, settledAbsentRec] 0
    ∧ salesFetchStore "u1" [] [tempSaleRec, legacyRec, settledAbsentRec] 0 = [] :=
  C2_merge_reconciliation "u1" [] [tempSaleRec, legacyRec, settledAbsentRec]
    tempSaleRec legacyRec settledAbsentRec 17000000000000011 12345 0
    "abc123def456abc123def456"
    (by decide) (by decide) (by decide) (by decide) (by decide)
    (by decide) (by decide) (by decide) (by decide) (by decide) (by decide)
    (by decide) (by decide) (by decide) (by decide) (by decide) (by decide)

theorem self_mem_addRec {st : List Rec} {q : Rec} {now : Nat}
    (h : ∀ x ∈ st, x.idf ≠ (fixupId q now).idf) : fixupId q now ∈ addRec st q now := by
  simp only [addRec]
  rw [if_neg]
  · exact List.mem_append_right _ (List.mem_singleton.mpr rfl)
  · intro hc
    obtain ⟨x, hx, hxe⟩ := List.any_eq_true.mp hc
    exact h x hx (by simpa using hxe)

theorem queueAction_events_head (qs : QueueState) (online ok : Bool) (atype : ActionType)
    (storeName : String) (payload : Rec) (now : Nat) :
    (queueAction qs online ok atype storeName payload now).2.head?
      = some (SyncEv.enqueued qs.nextQid) := by
  simp only [queueAction]
  cases online && (qs.nextQid != 0) <;> cases ok <;> simp

/-- Claim C4 (counterexample): a products create failing with a
connectivity error is NOT queued — the error is rethrown raw, no mutation
is appended and no synthetic saved-locally success is produced; only the
local store keeps the record. -/
theorem C4_products_create_not_queued :
    isNetworkError true netFailErr = true
    ∧ addBlocking Endpoint.products (some "u1") [] ⟨[], 1⟩ draftItemRec
        17000000000000012 0 (.error netFailErr) true true
      = ([localizedItem "u1" draftItemRec 17000000000000012], ⟨[], 1⟩,
         .err netFailErr, []) := by
  refine ⟨by decide, by decide⟩

/-- Claim C4 (amended): for clients and schedules creates, a connectivity
failure leaves the record in the store, appends a Pending create mutation
through queueAction — whose event trace begins with the enqueue, before its
own opportunistic replay attempt — and surfaces the synthetic
saved-locally success to the caller.  For products the same failure
rethrows the error unqueued (the record still remains in the store), and
for sales the caller had already received success before the
fire-and-forget API call could fail, the failure being only logged. -/
theorem C4_create_connectivity_failure (ep : Endpoint) (uid : String) (st : List Rec)
    (qs : QueueState) (item : Rec) (genId now : Nat) (e : ApiError)
    (online rok : Bool) (nowIso : String)
    (hnet : isNetworkError online e = true)
    (hep : ep = Endpoint.clients ∨ ep = Endpoint.schedules)
    (huid : uid ≠ "")
    (hkey : ∀ x ∈ st, x.idf ≠ (fixupId (localizedItem uid item genId) now).idf) :
    addBlocking ep (some uid) st qs item genId now (.error e) online rok
      = (addRec st (localizedItem uid item genId) now,
         (queueAction qs online rok .create (epStore ep) (localizedItem uid item genId) now).1,
         .silentSaved "Item saved locally. Will sync when online.",
         (queueAction qs online rok .create (epStore ep) (localizedItem uid item genId) now).2)
    ∧ fixupId (localizedItem uid item genId) now
        ∈ addRec st (localizedItem uid item genId) now
    ∧ (queueAction qs online rok .create (epStore ep)
        (localizedItem uid item genId) now).2.head? = some (SyncEv.enqueued qs.nextQid)
    ∧ addBlocking Endpoint.products (some uid) st qs item genId now (.error e) online rok
      = (addRec st (localizedItem uid item genId) now, qs, .err e, [])
    ∧ addSalesFireForget (some uid) st qs item genId now nowIso
      = (addRec st (salesTimestampFix (localizedItem uid item genId) nowIso) now, qs, .ok)
    ∧ salesCreateFailureBackground
        (addRec st (salesTimestampFix (localizedItem uid item genId) nowIso) now) qs
      = (addRec st (salesTimestampFix (localizedItem uid item genId) nowIso) now, qs) := by
  refine ⟨?_, self_mem_addRec hkey, queueAction_events_head qs online rok _ _ _ now,
    ?_, ?_, rfl⟩
  · rcases hep with rfl | rfl <;> simp [addBlocking, huid, hnet]
  · simp [addBlocking, huid, hnet]
  · simp [addSalesFireForget, huid]

/-- Witness for C4: the amended statement at a clients create failing with
a fetch failure while online, starting from an empty store and queue. -/
theorem C4_create_connectivity_failure_witness :
    addBlocking Endpoint.clients (some "u1") [] ⟨[], 1⟩ draftItemRec 17000000000000013 5
        (.error netFailErr) true false
      = (addRec [] (localizedItem "u1" draftItemRec 17000000000000013) 5,
         (queueAction ⟨[], 1⟩ true false .create (epStore Endpoint.clients)
           (localizedItem "u1" draftItemRec 17000000000000013) 5).1,
         .silentSaved "Item saved locally. Will sync when online.",
         (queueAction ⟨[], 1⟩ true false .create (epStore Endpoint.clients)
           (localizedItem "u1" draftItemRec 17000000000000013) 5).2)
    ∧ fixupId (localizedItem "u1" draftItemRec 17000000000000013) 5
        ∈ addRec [] (localizedItem "u1" draftItemRec 17000000000000013) 5
    ∧ (queueAction ⟨[], 1⟩ true false .create (epStore Endpoint.clients)
        (localizedItem "u1" draftItemRec 17000000000000013) 5).2.head?
      = some (SyncEv.enqueued 1)
    ∧ addBlocking Endpoint.products (some "u1") [] ⟨[], 1⟩ draftItemRec 17000000000000013 5
        (.error netFailErr) true false
      = (addRec [] (localizedItem "u1" draftItemRec 17000000000000013) 5, ⟨[], 1⟩,
         .err netFailErr, [])
    ∧ addSalesFireForget (some "u1") [] ⟨[], 1⟩ draftItemRec 17000000000000013 5
        "2024-03-01T00:00:00.000Z"
      = (addRec [] (salesTimestampFix (localizedItem "u1" draftItemRec 17000000000000013)
          "2024-03-01T00:00:00.000Z") 5, ⟨[], 1⟩, .ok)
    ∧ salesCreateFailureBackground
        (addRec [] (salesTimestampFix (localizedItem "u1" draftItemRec 17000000000000013)
          "2024-03-01T00:00:00.000Z") 5) ⟨[], 1⟩
      = (addRec [] (salesTimestampFix (localizedItem "u1" draftItemRec 17000000000000013)
          "2024-03-01T00:00:00.000Z") 5, ⟨[], 1⟩) :=
  C4_create_connectivity_failure Endpoint.clients "u1" [] ⟨[], 1⟩ draftItemRec
    17000000000000013 5 netFailErr true false "2024-03-01T00:00:00.000Z"
    (by decide) (Or.inl rfl) (by decide) (by decide)

theorem syncLoop_replays_sub (nav : Nat → Bool) (att : SyncAction → Bool)
    (l : List SyncAction) (i : Nat) (qs : QueueState) :
    ∀ q ∈ (syncLoop nav att l i qs).2.1, q ∈ l.map (fun a => a.qid) := by
  induction l generalizing i qs with
  | nil => simp [syncLoop]
  | cons a tl ih =>
    cases hnav : nav i with
    | false => simp [syncLoop, hnav]
    | true =>
      simp only [syncLoop, hnav, List.map_cons]
      intro q hq
      rcases List.mem_cons.mp (by simpa using hq) with h1 | h1
      · exact List.mem_cons.mpr (Or.inl h1)
      · exact List.mem_cons.mpr (Or.inr (ih _ _ q h1))

theorem syncLoop_replays_nodup (nav : Nat → Bool) (att : SyncAction → Bool)
    (l : List SyncAction) (i : Nat) (qs : QueueState)
    (h : (l.map (fun a => a.qid)).Nodup) : (syncLoop nav att l i qs).2.1.Nodup := by
  induction l generalizing i qs with
  | nil => simp [syncLoop]
  | cons a tl ih =>
    rw [List.map_cons, List.nodup_cons] at h
    cases hnav : nav i with
    | false => simp [syncLoop, hnav]
    | true =>
      simp only [syncLoop, hnav]
      refine List.nodup_cons.mpr ⟨?_, ih _ _ h.2⟩
      intro hmem
      exact h.1 (syncLoop_replays_sub nav att tl (i + 1) _ a.qid (by simpa using hmem))

/-- Claim C6: a syncAll invocation made while another run is in progress
returns immediately — replaying nothing and leaving the manager and the
queue untouched — and hence, across the run already in progress (started
from the not-in-progress state) and the reentrant invocation, every queued
mutation id is attempted at most once (the running pass attempts the
pending actions in order, each exactly once, stopping early if the
connection drops). -/
theorem C6_syncAll_reentrant_noop (nav : Nat → Bool) (att : SyncAction → Bool)
    (ms : SyncMgrState) (qs : QueueState)
    (hrun : ms.syncInProgress = true) (hn : nav 0 = true)
    (hnodup : (qs.actions.map (fun a => a.qid)).Nodup) :
    syncAllModel nav att ms qs = (ms, qs, [])
    ∧ ((syncAllModel nav att ⟨ms.isOnline, false⟩ qs).2.2
        ++ (syncAllModel nav att ms qs).2.2).Nodup := by
  have h1 : syncAllModel nav att ms qs = (ms, qs, []) := by
    simp [syncAllModel, hn, hrun]
  refine ⟨h1, ?_⟩
  rw [h1]
  simp only [List.append_nil]
  have hpend : ((qs.actions.filter (fun a => !a.synced)).map (fun a => a.qid)).Nodup :=
    hnodup.sublist (List.Sublist.map _ (List.filter_sublist _))
  by_cases he : (qs.actions.filter (fun a => !a.synced)).isEmpty = true
  · simp [syncAllModel, hn, he]
  · have hred : (syncAllModel nav att ⟨ms.isOnline, false⟩ qs).2.2
        = (syncLoop nav att (qs.actions.filter (fun a => !a.synced)) 1 qs).2.1 := by
      simp [syncAllModel, hn, he]
    rw [hred]
    exact syncLoop_replays_nodup nav att _ 1 qs hpend

/-- Witness for C6: the reentrancy guard and the at-most-once bound,
evaluated at a queue holding one pending create while a run is in
progress. -/
theorem C6_syncAll_reentrant_noop_witness :
    syncAllModel (fun _ => true) (fun _ => true) ⟨true, true⟩
        ⟨[⟨some 1, .create, "sales", tempSaleRec, 0, false⟩], 2⟩
      = (⟨true, true⟩, ⟨[⟨some 1, .create, "sales", tempSaleRec, 0, false⟩], 2⟩, [])
    ∧ ((syncAllModel (fun _ => true) (fun _ => true) ⟨true, false⟩
          ⟨[⟨some 1, .create, "sales", tempSaleRec, 0, false⟩], 2⟩).2.2
         ++ (syncAllModel (fun _ => true) (fun _ => true) ⟨true, true⟩
          ⟨[⟨some 1, .create, "sales", tempSaleRec, 0, false⟩], 2⟩).2.2).Nodup :=
  C6_syncAll_reentrant_noop (fun _ => true) (fun _ => true) ⟨true, true⟩
    ⟨[⟨some 1, .create, "sales", tempSaleRec, 0, false⟩], 2⟩
    rfl rfl (by decide)

/-- Claim C9: every data operation reads the user identity first and a
missing (or empty) user id fails immediately with the not-authenticated
result, before any store write, queue append or network call — the store,
the queue and the network-call count are untouched and the body of the
operation (quantified here, so this holds whatever the rest of the
operation would do) never runs. -/
theorem C9_not_authenticated_fails_fast (ep : Endpoint) (st : List Rec) (qs : QueueState)
    (item : Rec) (genId now : Nat) (cr : Except ApiError Rec) (online rok : Bool)
    (nowIso : String) (body : String → List Rec × QueueState × Nat × OpResult) :
    addBlocking ep none st qs item genId now cr online rok = (st, qs, .notAuth, [])
    ∧ addSalesFireForget none st qs item genId now nowIso = (st, qs, .notAuth)
    ∧ mutationAuthGate none st qs body = (st, qs, 0, .notAuth)
    ∧ loadDataStart false none st qs body = (st, qs, 0, .notAuth)
    ∧ addBlocking ep (some "") st qs item genId now cr online rok = (st, qs, .notAuth, [])
    ∧ mutationAuthGate (some "") st qs body = (st, qs, 0, .notAuth)
    ∧ loadDataStart false (some "") st qs body = (st, qs, 0, .notAuth) := by
  refine ⟨rfl, rfl, rfl, rfl, by simp [addBlocking], by simp [mutationAuthGate],
    by simp [loadDataStart]⟩

end Trippo
